import Mathlib

/-!
Shallow embedding of the `yatube` blog application's view layer
(`src/yatube/posts/views.py`): data model, paginator, and the six request
handlers (index, group_posts, profile, post_detail, post_create, post_edit),
together with theorems about their behaviour.

Parts of the repository that the views import but that are not part of the
view module (the Django models `Post`/`Group`/`User` with their default
ordering, the `PostForm` validator, and the `settings.PAGE` constant) are
modelled from the specification, as marked in their doc comments.  The
Django `Paginator`/`get_page` pair is an external library collaborator and
is embedded from its documented semantics.
-/

namespace Yatube

/-- A user record: identity with a unique username (`User` model). -/
structure User where
  id : Nat
  username : String
deriving DecidableEq, Repr

/-- A community record with a unique slug (`Group` model). -/
structure Group where
  id : Nat
  slug : String
  title : String
deriving DecidableEq, Repr

/-- A post record (`Post` model): text body, author reference (user id),
optional group reference (group id), publication timestamp. -/
structure Post where
  id : Nat
  text : String
  author : Nat
  group : Option Nat
  pubDate : Nat
deriving DecidableEq, Repr

/-- The persistent store: Users, Groups and Posts. -/
structure DB where
  users : List User
  groups : List Group
  posts : List Post
deriving DecidableEq, Repr

/-- `get_object_or_404(User, username=username)`: first user with the
given username, if any. -/
def DB.findUser (db : DB) (username : String) : Option User :=
  db.users.find? (fun u => u.username == username)

/-- `get_object_or_404(Group, slug=slug)`: first group with the given
slug, if any. -/
def DB.findGroup (db : DB) (slug : String) : Option Group :=
  db.groups.find? (fun g => g.slug == slug)

/-- `get_object_or_404(Post, pk=post_id)`: first post with the given id,
if any. -/
def DB.findPost (db : DB) (pid : Nat) : Option Post :=
  db.posts.find? (fun p => p.id == pid)

/-- `get_object_or_404(Post, id=post_id, author=request.user)`: first post
matching BOTH the id and the author, if any (the ownership-via-query-filter
lookup of `post_edit`, views.py line 122). -/
def DB.findPostOwned (db : DB) (pid uid : Nat) : Option Post :=
  db.posts.find? (fun p => p.id == pid && p.author == uid)

/-- Group lookup by primary key (FK dereference `post.group`). -/
def DB.groupById (db : DB) (gid : Nat) : Option Group :=
  db.groups.find? (fun g => g.id == gid)

/-- Descending-by-publication-date order on posts (newest first). -/
def newerEq (a b : Post) : Bool :=
  b.pubDate ≤ a.pubDate

/-- Modelled from the spec: the default ordering of the `Post` model
(`models.py` is not under `src/`): "fetch all posts ordered newest-first";
"posts are ordered by descending creation time for listing purposes".
This is `Post.objects.all()` as seen by the views. -/
def DB.allPostsOrdered (db : DB) : List Post :=
  db.posts.mergeSort newerEq

/-- Modelled from the spec: `settings.PAGE`, the process-wide page size
(`settings.py` is not under `src/`): "Page size: process-wide constant
(e.g., 10)"; the repository's tests use 13 posts split as 10 + 3. -/
def PAGE : Nat := 10

/-- The `page` query parameter as the paginator receives it: absent,
present but not an integer, or an integer. -/
inductive PageParam
  | missing
  | nonNumeric
  | num (k : Int)
deriving DecidableEq, Repr

/-- Django `Paginator.num_pages` (external collaborator, embedded from its
documented semantics, with `orphans = 0` and `allow_empty_first_page`):
`ceil(max 1 N / P)`, so an empty listing still has one (empty) page. -/
def numPages (N P : Nat) : Nat :=
  (max 1 N + P - 1) / P

/-- Django `Paginator.get_page` page-number resolution (external
collaborator, embedded from its documented semantics): a missing or
non-numeric parameter gives page 1; an integer outside `[1, num_pages]`
gives the last page. -/
def resolvePage (N P : Nat) (q : PageParam) : Nat :=
  match q with
  | .missing => 1
  | .nonNumeric => 1
  | .num k =>
      if k < 1 then numPages N P
      else if (numPages N P : Int) < k then numPages N P
      else k.toNat

/-- Django `Page.object_list` for the resolved page number `K`: the slice
`[(K-1)*P, K*P)` of the item sequence. -/
def pageItems (l : List α) (P : Nat) (q : PageParam) : List α :=
  let K := resolvePage l.length P q
  (l.drop ((K - 1) * P)).take P

/-- Outcome of a handler: a 404, a rendered template with its context, or
a redirect (`name`, numeric argument: a user id or a post id). -/
inductive HResult (ctx : Type)
  | notFound
  | render (template : String) (context : ctx)
  | redirect (name : String) (arg : Nat)
deriving DecidableEq, Repr

/-- The HTTP status corresponding to a handler outcome. -/
def HResult.status : HResult ctx → Nat
  | .notFound => 404
  | .render _ _ => 200
  | .redirect _ _ => 302

/-- HTTP request method, as far as the handlers inspect it. -/
inductive Method
  | get
  | post
deriving DecidableEq, Repr

/-- Rendering context of the index page (views.py lines 22-25). -/
structure IndexCtx where
  pageObj : List Post
  title : String
deriving DecidableEq, Repr

/-- `index` (views.py lines 13-26): fetch all posts in model order,
paginate by `settings.PAGE` and the `page` query parameter, render.
Handlers are embedded as state transformers `DB → ... → DB × HResult _`;
the read handlers perform no store writes, so they return the store
unchanged. -/
def index (db : DB) (page : PageParam) : DB × HResult IndexCtx :=
  let postList := db.allPostsOrdered
  (db, .render "posts/index.html"
    { pageObj := pageItems postList PAGE page
      title := "Последние обновления на сайте" })

/-- The posts of group `g`: `Post.objects.filter(group=group)`
(views.py line 34), in the model's default order. -/
def groupListingPosts (db : DB) (g : Group) : List Post :=
  db.allPostsOrdered.filter (fun p => p.group == some g.id)

/-- Rendering context of the group listing page (views.py lines 39-44). -/
structure GroupCtx where
  group : Group
  posts : List Post
  pageObj : List Post
  title : String
deriving DecidableEq, Repr

/-- `group_posts` (views.py lines 29-45): look up the Group by slug
(404 when absent), fetch its posts, paginate, render.  `str(group)` in the
title is taken to be the group's title (the model's `__str__` is not under
`src/`). -/
def group_posts (db : DB) (slug : String) (page : PageParam) :
    DB × HResult GroupCtx :=
  match db.findGroup slug with
  | none => (db, .notFound)
  | some g =>
      let posts := groupListingPosts db g
      (db, .render "posts/group_list.html"
        { group := g
          posts := posts
          pageObj := pageItems posts PAGE page
          title := "Записи сообщества " ++ g.title })

/-- The posts authored by user `uid`: `author.posts.all()`
(views.py line 53), in the model's default order. -/
def profilePosts (db : DB) (uid : Nat) : List Post :=
  db.allPostsOrdered.filter (fun p => p.author == uid)

/-- Rendering context of the profile page (views.py lines 59-65). -/
structure ProfileCtx where
  author : User
  posts : List Post
  countPosts : Nat
  pageObj : List Post
  title : String
deriving DecidableEq, Repr

/-- `profile` (views.py lines 48-66): look up the User by username
(404 when absent), fetch the user's posts and their count, paginate,
render. -/
def profile (db : DB) (username : String) (page : PageParam) :
    DB × HResult ProfileCtx :=
  match db.findUser username with
  | none => (db, .notFound)
  | some u =>
      let posts := profilePosts db u.id
      (db, .render "posts/profile.html"
        { author := u
          posts := posts
          countPosts := (db.posts.filter (fun p => p.author == u.id)).length
          pageObj := pageItems posts PAGE page
          title := "Профайл пользователя " ++ u.username })

/-- Rendering context of the post detail page (views.py lines 78-83). -/
structure DetailCtx where
  post : Post
  group : Option Group
  countPosts : Nat
  title : String
deriving DecidableEq, Repr

/-- `post_detail` (views.py lines 69-84): look up the Post by id
(404 when absent), dereference its group and author, count the author's
posts, render. -/
def post_detail (db : DB) (pid : Nat) : DB × HResult DetailCtx :=
  match db.findPost pid with
  | none => (db, .notFound)
  | some p =>
      (db, .render "posts/post_detail.html"
        { post := p
          group := p.group.bind db.groupById
          countPosts := (db.posts.filter (fun q => q.author == p.author)).length
          title := "Пост " ++ p.text.take 30 })

/-- The fields a `PostForm` submission carries: the text body and an
optional group reference. -/
structure FormData where
  text : String
  group : Option Nat
deriving DecidableEq, Repr

/-- Modelled from the spec: `PostForm` validation (`forms.py` is not under
`src/`): "submitted form fields fail constraints (e.g., empty required
text)" — the text field is required, and the optional group reference, if
present, must name an existing Group ("a Post's group, if present, must
reference an existing Group"). -/
def formValid (db : DB) (f : FormData) : Bool :=
  f.text != "" &&
    (match f.group with
     | none => true
     | some gid => (db.groupById gid).isSome)

/-- The primary key the store assigns to a newly inserted Post: one larger
than every existing id (an auto-increment key, supplied by the external
Data Access Layer). -/
def DB.nextPostId (db : DB) : Nat :=
  (db.posts.map (fun p => p.id)).foldr max 0 + 1

/-- Rendering context of the create-post page (views.py lines 95-98 and
105-108): the bound form (none for the blank form of a GET) and title. -/
structure CreateCtx where
  form : Option FormData
  title : String
deriving DecidableEq, Repr

/-- `post_create` (views.py lines 87-114): GET renders a blank form; an
invalid POST re-renders the bound form; a valid POST saves a new Post with
`author = request.user` and `pub_date = datetime.now()` and redirects to
the author's profile.  `login_required` is the external auth collaborator:
the handler runs with the session user `user` already established. -/
def post_create (db : DB) (user : Nat) (method : Method) (f : FormData)
    (now : Nat) : DB × HResult CreateCtx :=
  if method ≠ Method.post then
    (db, .render "posts/create_post.html"
      { form := none, title := "Создание поста" })
  else if formValid db f = false then
    (db, .render "posts/create_post.html"
      { form := some f, title := "Создание поста" })
  else
    let post : Post :=
      { id := db.nextPostId, text := f.text, author := user
        group := f.group, pubDate := now }
    ({ db with posts := db.posts ++ [post] },
     .redirect "posts:profile" user)

/-- Rendering context of the edit-post page (views.py lines 126-131 and
139-143): the bound form, the `is_edit` flag, the post (present only in
the GET context, as in the source) and title. -/
structure EditCtx where
  form : Option FormData
  isEdit : Bool
  post : Option Post
  title : String
deriving DecidableEq, Repr

/-- `form.save(commit=False)` followed by the author reassignment and
timestamp refresh of views.py lines 145-148: the existing record with the
form's fields bound, author set to the session user, `pub_date` set to
`datetime.now()`; the id is untouched. -/
def updateWith (post : Post) (f : FormData) (user now : Nat) : Post :=
  { post with text := f.text, group := f.group, author := user, pubDate := now }

/-- `post_edit` (views.py lines 117-149): look up the Post filtered by id
AND author = session user (404 when no match); GET renders the form
pre-populated from the post; an invalid POST re-renders; a valid POST
updates the record in place and redirects to the post's detail page. -/
def post_edit (db : DB) (user pid : Nat) (method : Method) (f : FormData)
    (now : Nat) : DB × HResult EditCtx :=
  match db.findPostOwned pid user with
  | none => (db, .notFound)
  | some post =>
      if method ≠ Method.post then
        (db, .render "posts/update_post.html"
          { form := some { text := post.text, group := post.group }
            isEdit := true
            post := some post
            title := "Редактрирование поста " ++ toString post.id })
      else if formValid db f = false then
        (db, .render "posts/update_post.html"
          { form := some f
            isEdit := true
            post := none
            title := "Редактрирование поста " ++ toString post.id })
      else
        let post' := updateWith post f user now
        ({ db with
            posts := db.posts.map (fun q => if q.id == post.id then post' else q) },
         .redirect "posts:post_detail" post.id)

/-! ## Lookup characterisations -/

theorem findPostOwned_eq_none (db : DB) (pid uid : Nat) :
    db.findPostOwned pid uid = none ↔
      ¬ ∃ p ∈ db.posts, p.id = pid ∧ p.author = uid := by
  rw [DB.findPostOwned, List.find?_eq_none]
  constructor
  · rintro h ⟨p, hp, h1, h2⟩
    exact h p hp (by simp [h1, h2])
  · intro h p hp hpred
    simp only [Bool.and_eq_true, beq_iff_eq] at hpred
    exact h ⟨p, hp, hpred.1, hpred.2⟩

theorem findGroup_eq_none (db : DB) (slug : String) :
    db.findGroup slug = none ↔ ¬ ∃ g ∈ db.groups, g.slug = slug := by
  rw [DB.findGroup, List.find?_eq_none]
  simp

theorem findUser_eq_none (db : DB) (username : String) :
    db.findUser username = none ↔ ¬ ∃ u ∈ db.users, u.username = username := by
  rw [DB.findUser, List.find?_eq_none]
  simp

theorem findPost_eq_none (db : DB) (pid : Nat) :
    db.findPost pid = none ↔ ¬ ∃ p ∈ db.posts, p.id = pid := by
  rw [DB.findPost, List.find?_eq_none]
  simp

/-! ## Claim theorems -/

/-- Claim C1: the edit handler looks the post up filtered by id AND author =
session user; whenever no post with that id exists OR it exists with a
different author, the handler fails with the same NotFound outcome, with
no distinction between the two cases. -/
theorem post_edit_notFound_iff_no_owned (db : DB) (user pid : Nat)
    (m : Method) (f : FormData) (now : Nat) :
    (post_edit db user pid m f now).2 = HResult.notFound ↔
      ¬ ∃ p ∈ db.posts, p.id = pid ∧ p.author = user := by
  cases hf : db.findPostOwned pid user with
  | none =>
      have h1 : (post_edit db user pid m f now).2 = HResult.notFound := by
        simp [post_edit, hf]
      exact iff_of_true h1 ((findPostOwned_eq_none db pid user).mp hf)
  | some post =>
      have hex : ∃ p ∈ db.posts, p.id = pid ∧ p.author = user := by
        have hm := List.mem_of_find?_eq_some hf
        have hp := List.find?_some hf
        simp only [Bool.and_eq_true, beq_iff_eq] at hp
        exact ⟨post, hm, hp.1, hp.2⟩
      refine iff_of_false ?_ (not_not_intro hex)
      intro hres
      simp only [post_edit, hf] at hres
      split at hres
      · simp at hres
      · split at hres <;> simp at hres

/-- Claim C6: for the group listing, profile and post detail handlers, the
outcome is NotFound if and only if the referenced entity (Group by slug,
User by username, Post by id) does not exist; when it exists, the handler
renders that entity's data. -/
theorem read_handlers_notFound_iff (db : DB) (slug username : String)
    (pid : Nat) (page : PageParam) :
    ((group_posts db slug page).2 = HResult.notFound ↔
      ¬ ∃ g ∈ db.groups, g.slug = slug) ∧
    ((profile db username page).2 = HResult.notFound ↔
      ¬ ∃ u ∈ db.users, u.username = username) ∧
    ((post_detail db pid).2 = HResult.notFound ↔
      ¬ ∃ p ∈ db.posts, p.id = pid) ∧
    (∀ g, db.findGroup slug = some g →
      ∃ c, (group_posts db slug page).2 = .render "posts/group_list.html" c ∧
        c.group = g) ∧
    (∀ u, db.findUser username = some u →
      ∃ c, (profile db username page).2 = .render "posts/profile.html" c ∧
        c.author = u) ∧
    (∀ p, db.findPost pid = some p →
      ∃ c, (post_detail db pid).2 = .render "posts/post_detail.html" c ∧
        c.post = p) := by
  refine ⟨?_, ?_, ?_, ?_, ?_, ?_⟩
  · cases h : db.findGroup slug with
    | none =>
        exact iff_of_true (by simp [group_posts, h])
          ((findGroup_eq_none db slug).mp h)
    | some g =>
        refine iff_of_false (by simp [group_posts, h]) (not_not_intro ?_)
        have hm := List.mem_of_find?_eq_some h
        have hp := List.find?_some h
        simp only [beq_iff_eq] at hp
        exact ⟨g, hm, hp⟩
  · cases h : db.findUser username with
    | none =>
        exact iff_of_true (by simp [profile, h])
          ((findUser_eq_none db username).mp h)
    | some u =>
        refine iff_of_false (by simp [profile, h]) (not_not_intro ?_)
        have hm := List.mem_of_find?_eq_some h
        have hp := List.find?_some h
        simp only [beq_iff_eq] at hp
        exact ⟨u, hm, hp⟩
  · cases h : db.findPost pid with
    | none =>
        exact iff_of_true (by simp [post_detail, h])
          ((findPost_eq_none db pid).mp h)
    | some p =>
        refine iff_of_false (by simp [post_detail, h]) (not_not_intro ?_)
        have hm := List.mem_of_find?_eq_some h
        have hp := List.find?_some h
        simp only [beq_iff_eq] at hp
        exact ⟨p, hm, hp⟩
  · intro g hg
    simp only [group_posts, hg]
    exact ⟨_, rfl, rfl⟩
  · intro u hu
    simp only [profile, hu]
    exact ⟨_, rfl, rfl⟩
  · intro p hp
    simp only [post_detail, hp]
    exact ⟨_, rfl, rfl⟩

/-- Claim C10: the four read handlers never modify persistent state: the store
they return is exactly the one they received, whatever the parameters and
whether they succeed or fail with NotFound. -/
theorem read_handlers_preserve_db (db : DB) (page : PageParam)
    (slug username : String) (pid : Nat) :
    (index db page).1 = db ∧ (group_posts db slug page).1 = db ∧
    (profile db username page).1 = db ∧ (post_detail db pid).1 = db := by
  refine ⟨rfl, ?_, ?_, ?_⟩
  · cases h : db.findGroup slug <;> simp [group_posts, h]
  · cases h : db.findUser username <;> simp [profile, h]
  · cases h : db.findPost pid <;> simp [post_detail, h]

/-- A small concrete store used to instantiate the theorems with
hypotheses: one user, two groups, two posts (both by user 1, one of them
in group 1). -/
def dbW : DB :=
  { users := [{ id := 1, username := "masha" }]
    groups := [{ id := 1, slug := "rock", title := "Rock" },
               { id := 2, slug := "jazz", title := "Jazz" }]
    posts := [{ id := 1, text := "hello", author := 1, group := some 1, pubDate := 5 },
              { id := 2, text := "world", author := 1, group := none, pubDate := 7 }] }

/-- Claim C2: a valid submission to the create handler by an authenticated user
persists one new Post whose author is the session user and whose timestamp
is the current server time, redirects to that author's profile, and the
new post then appears in the author's profile listing with the submitted
text and group. -/
theorem post_create_valid (db : DB) (user : Nat) (f : FormData) (now : Nat)
    (hv : formValid db f = true) :
    (post_create db user Method.post f now).1.posts =
      db.posts ++ [{ id := db.nextPostId, text := f.text, author := user,
                     group := f.group, pubDate := now }] ∧
    (post_create db user Method.post f now).2 =
      HResult.redirect "posts:profile" user ∧
    ∃ p ∈ profilePosts (post_create db user Method.post f now).1 user,
      p.text = f.text ∧ p.group = f.group ∧ p.author = user ∧ p.pubDate = now := by
  have hstep : post_create db user Method.post f now =
      ({ db with posts := db.posts ++
          [{ id := db.nextPostId, text := f.text, author := user,
             group := f.group, pubDate := now }] },
       HResult.redirect "posts:profile" user) := by
    simp [post_create, hv]
  refine ⟨by rw [hstep], by rw [hstep], ?_⟩
  refine ⟨{ id := db.nextPostId, text := f.text, author := user,
            group := f.group, pubDate := now }, ?_, rfl, rfl, rfl, rfl⟩
  rw [hstep, profilePosts, DB.allPostsOrdered, List.mem_filter,
    List.mem_mergeSort]
  simp

/-- Witness for C2: in the concrete store, submitting the valid form
`text = "Hello"` appends exactly one post carrying that text. -/
theorem post_create_valid_witness :
    formValid dbW { text := "Hello", group := none } = true ∧
    (post_create dbW 1 Method.post { text := "Hello", group := none } 9).1.posts =
      dbW.posts ++ [{ id := dbW.nextPostId, text := "Hello", author := 1,
                      group := none, pubDate := 9 }] :=
  ⟨by decide,
   (post_create_valid dbW 1 { text := "Hello", group := none } 9 (by decide)).1⟩

/-- Claim C3: an invalid submission to the create handler re-renders the bound
form at HTTP 200 (not an error status) and persists no Post: the store is
exactly what it was before the request. -/
theorem post_create_invalid (db : DB) (user : Nat) (f : FormData) (now : Nat)
    (hv : formValid db f = false) :
    (post_create db user Method.post f now).1 = db ∧
    (post_create db user Method.post f now).2 =
      HResult.render "posts/create_post.html"
        { form := some f, title := "Создание поста" } ∧
    (post_create db user Method.post f now).2.status = 200 := by
  refine ⟨?_, ?_, ?_⟩ <;> simp [post_create, hv, HResult.status]

/-- Witness for C3: submitting the empty-text form to the concrete store
leaves it unchanged. -/
theorem post_create_invalid_witness :
    formValid dbW { text := "", group := none } = false ∧
    (post_create dbW 1 Method.post { text := "", group := none } 9).1 = dbW :=
  ⟨by decide,
   (post_create_invalid dbW 1 { text := "", group := none } 9 (by decide)).1⟩

/-- Claim C8: a valid submission to the edit handler by the post's owner updates
the existing Post in place: the store keeps the same number of posts, the
updated record keeps the post's id with the form's text bound, the author
re-assigned to the session user (a no-op: the fetched post already had
that author) and the timestamp refreshed to the current server time, every
post with a different id is untouched, and the handler redirects to the
post's detail page. -/
theorem post_edit_valid_inplace (db : DB) (user pid : Nat) (f : FormData)
    (now : Nat) (post : Post)
    (hf : db.findPostOwned pid user = some post)
    (hv : formValid db f = true) :
    (post_edit db user pid Method.post f now).1.posts.length =
      db.posts.length ∧
    updateWith post f user now ∈ (post_edit db user pid Method.post f now).1.posts ∧
    (updateWith post f user now).id = pid ∧
    (updateWith post f user now).text = f.text ∧
    (updateWith post f user now).author = user ∧
    post.author = user ∧
    (updateWith post f user now).pubDate = now ∧
    (∀ q ∈ db.posts, q.id ≠ post.id →
      q ∈ (post_edit db user pid Method.post f now).1.posts) ∧
    (post_edit db user pid Method.post f now).2 =
      HResult.redirect "posts:post_detail" post.id := by
  have hp := List.find?_some hf
  simp only [DB.findPostOwned, Bool.and_eq_true, beq_iff_eq] at hp
  have hm : post ∈ db.posts := List.mem_of_find?_eq_some hf
  have hstep : post_edit db user pid Method.post f now =
      ({ db with
          posts := db.posts.map
            (fun q => if q.id == post.id then updateWith post f user now else q) },
       HResult.redirect "posts:post_detail" post.id) := by
    simp [post_edit, hf, hv]
  refine ⟨by rw [hstep]; exact List.length_map _ _, ?_, ?_, rfl, rfl, hp.2, rfl,
    ?_, by rw [hstep]⟩
  · rw [hstep]
    have := List.mem_map_of_mem
      (fun q => if q.id == post.id then updateWith post f user now else q) hm
    simpa using this
  · simp [updateWith, hp.1]
  · intro q hq hne
    rw [hstep]
    have := List.mem_map_of_mem
      (fun r => if r.id == post.id then updateWith post f user now else r) hq
    simpa [hne] using this

/-- Witness for C8: in the concrete store, the owner (user 1) edits post 1
with a valid form; post 2 keeps its record and the post count stays 2. -/
theorem post_edit_valid_inplace_witness :
    dbW.findPostOwned 1 1 =
      some { id := 1, text := "hello", author := 1, group := some 1, pubDate := 5 } ∧
    formValid dbW { text := "edited", group := some 2 } = true ∧
    (post_edit dbW 1 1 Method.post { text := "edited", group := some 2 } 11).1.posts.length =
      dbW.posts.length :=
  ⟨by decide, by decide,
   (post_edit_valid_inplace dbW 1 1 { text := "edited", group := some 2 } 11
      { id := 1, text := "hello", author := 1, group := some 1, pubDate := 5 }
      (by decide) (by decide)).1⟩

/-- Claim C7: the group listing of `g` contains exactly the posts whose group
reference is `g`; a post whose group is `g` does not appear in the listing
of any other group. -/
theorem group_listing_exact (db : DB) (g g2 : Group) (p : Post)
    (hne : g.id ≠ g2.id) :
    (p ∈ groupListingPosts db g ↔ p ∈ db.posts ∧ p.group = some g.id) ∧
    (p.group = some g.id → p ∉ groupListingPosts db g2) := by
  constructor
  · rw [groupListingPosts, List.mem_filter, DB.allPostsOrdered,
      List.mem_mergeSort]
    simp
  · intro hg hmem
    rw [groupListingPosts, List.mem_filter] at hmem
    have h2 := hmem.2
    rw [hg] at h2
    simp only [beq_iff_eq, Option.some.injEq] at h2
    exact hne h2

/-- Witness for C7, at the concrete store: post 1 carries group 1
("rock"), and membership in that group's listing coincides with the
group-reference test; the other group ("jazz", id 2) is distinct. -/
theorem group_listing_exact_witness :
    ((⟨1, "rock", "Rock"⟩ : Group).id ≠ (⟨2, "jazz", "Jazz"⟩ : Group).id) ∧
    ((⟨1, "hello", 1, some 1, 5⟩ : Post) ∈
        groupListingPosts dbW ⟨1, "rock", "Rock"⟩ ↔
      (⟨1, "hello", 1, some 1, 5⟩ : Post) ∈ dbW.posts ∧
        (⟨1, "hello", 1, some 1, 5⟩ : Post).group =
          some (⟨1, "rock", "Rock"⟩ : Group).id) :=
  ⟨by decide,
   (group_listing_exact dbW ⟨1, "rock", "Rock"⟩ ⟨2, "jazz", "Jazz"⟩
      ⟨1, "hello", 1, some 1, 5⟩ (by decide)).1⟩

theorem allPostsOrdered_pairwise (db : DB) :
    db.allPostsOrdered.Pairwise (fun a b => b.pubDate ≤ a.pubDate) := by
  have htrans : ∀ a b c : Post,
      newerEq a b = true → newerEq b c = true → newerEq a c = true := by
    intro a b c hab hbc
    simp only [newerEq, decide_eq_true_eq] at hab hbc ⊢
    omega
  have htotal : ∀ a b : Post, (newerEq a b || newerEq b a) = true := by
    intro a b
    simp only [newerEq, Bool.or_eq_true, decide_eq_true_eq]
    omega
  have h := List.sorted_mergeSort htrans htotal db.posts
  rw [DB.allPostsOrdered]
  exact h.imp (fun hab => by simpa [newerEq, decide_eq_true_eq] using hab)

/-- Claim C9: every listing presents posts newest first: the index's page object
and the group and profile listings are sorted by descending publication
date, and the index renders with the site-updates title. -/
theorem listings_newest_first (db : DB) (page : PageParam) (g : Group)
    (uid : Nat) :
    (∃ c, (index db page).2 = HResult.render "posts/index.html" c ∧
      c.pageObj.Pairwise (fun a b => b.pubDate ≤ a.pubDate) ∧
      c.title = "Последние обновления на сайте") ∧
    (groupListingPosts db g).Pairwise (fun a b => b.pubDate ≤ a.pubDate) ∧
    (profilePosts db uid).Pairwise (fun a b => b.pubDate ≤ a.pubDate) := by
  have hall := allPostsOrdered_pairwise db
  refine ⟨⟨_, rfl, ?_, rfl⟩, hall.filter _, hall.filter _⟩
  have hsub : (pageItems db.allPostsOrdered PAGE page).Sublist
      db.allPostsOrdered := by
    simp only [pageItems]
    exact (List.take_sublist _ _).trans (List.drop_sublist _ _)
  exact hall.sublist hsub

/-! ## Paginator arithmetic -/

theorem one_le_numPages (N P : Nat) (hP : 0 < P) : 1 ≤ numPages N P := by
  unfold numPages
  rw [Nat.le_div_iff_mul_le hP]
  omega

theorem numPages_bounds (N P : Nat) (hP : 0 < P) (hN : 0 < N) :
    N ≤ numPages N P * P ∧ numPages N P * P < N + P := by
  have hmax : max 1 N = N := max_eq_right hN
  have hub : (N + P - 1) / P * P ≤ N + P - 1 := Nat.div_mul_le_self _ _
  have hlb : N + P - 1 < ((N + P - 1) / P + 1) * P :=
    (Nat.div_lt_iff_lt_mul hP).mp (Nat.lt_succ_self _)
  have hsucc : ((N + P - 1) / P + 1) * P = (N + P - 1) / P * P + P :=
    Nat.succ_mul _ _
  rw [hsucc] at hlb
  unfold numPages
  rw [hmax]
  omega

theorem lastPage_remainder (N P : Nat) (hP : 0 < P) (hN : 0 < N) :
    N + P - numPages N P * P = if N % P = 0 then P else N % P := by
  obtain ⟨h1, h2⟩ := numPages_bounds N P hP hN
  have hqr : P * (N / P) + N % P = N := Nat.div_add_mod N P
  have hmod : N % P < P := Nat.mod_lt N hP
  have hc : N / P * P = P * (N / P) := Nat.mul_comm _ _
  have hMq : numPages N P = N / P + (if N % P = 0 then 0 else 1) := by
    by_cases h : N % P = 0
    · rw [h, if_pos rfl, Nat.add_zero]
      have hle : N / P ≤ numPages N P :=
        Nat.le_of_mul_le_mul_right (by omega) hP
      have hx : numPages N P * P < (N / P + 1) * P := by
        have hs : (N / P + 1) * P = N / P * P + P := Nat.succ_mul _ _
        omega
      have hge := Nat.lt_of_mul_lt_mul_right hx
      omega
    · rw [if_neg h]
      have hlt : N / P < numPages N P := by
        refine Nat.lt_of_mul_lt_mul_right (a := P) ?_
        omega
      have hx : numPages N P * P < (N / P + 2) * P := by
        have hs : (N / P + 2) * P = N / P * P + 2 * P := by ring
        omega
      have hge := Nat.lt_of_mul_lt_mul_right hx
      omega
  by_cases h : N % P = 0
  · rw [if_pos h]
    rw [h, if_pos rfl, Nat.add_zero] at hMq
    rw [hMq]
    omega
  · rw [if_neg h]
    rw [if_neg h] at hMq
    rw [hMq]
    have hs : (N / P + 1) * P = N / P * P + P := Nat.succ_mul _ _
    omega

theorem pageItems_num_length (l : List α) (P K : Nat) (hP : 0 < P)
    (hN : 0 < l.length) (hK1 : 1 ≤ K) (hK2 : K ≤ numPages l.length P) :
    (pageItems l P (PageParam.num (K : Int))).length =
      if K < numPages l.length P then P
      else if l.length % P = 0 then P else l.length % P := by
  have c1 : ¬ ((K : Int) < 1) := not_lt.mpr (by exact_mod_cast hK1)
  have c2 : ¬ ((numPages l.length P : Int) < (K : Int)) :=
    not_lt.mpr (by exact_mod_cast hK2)
  have hres : resolvePage l.length P (PageParam.num (K : Int)) = K := by
    simp only [resolvePage, if_neg c1, if_neg c2, Int.toNat_ofNat]
  have hlen : (pageItems l P (PageParam.num (K : Int))).length =
      min P (l.length - (K - 1) * P) := by
    simp only [pageItems, hres, List.length_take, List.length_drop]
  rw [hlen]
  obtain ⟨h1, h2⟩ := numPages_bounds l.length P hP hN
  have hone := one_le_numPages l.length P hP
  have hKPexp : (K - 1) * P + P = K * P := by
    have hsub := Nat.sub_one_mul K P
    have hK : 1 * P ≤ K * P := Nat.mul_le_mul_right P hK1
    omega
  by_cases hcase : K < numPages l.length P
  · rw [if_pos hcase]
    have hKM : K * P ≤ (numPages l.length P - 1) * P :=
      Nat.mul_le_mul_right P (by omega)
    have hM1 : (numPages l.length P - 1) * P + P = numPages l.length P * P := by
      have hsub := Nat.sub_one_mul (numPages l.length P) P
      have hM : 1 * P ≤ numPages l.length P * P := Nat.mul_le_mul_right P hone
      omega
    omega
  · rw [if_neg hcase]
    have hKM : K = numPages l.length P := le_antisymm hK2 (not_lt.mp hcase)
    have hrem := lastPage_remainder l.length P hP hN
    rw [hKM] at hKPexp
    rw [hKM]
    have hmod : l.length % P < P := Nat.mod_lt _ hP
    by_cases h : l.length % P = 0
    · rw [if_pos h]
      rw [if_pos h] at hrem
      omega
    · rw [if_neg h]
      rw [if_neg h] at hrem
      omega

/-- Claim C4, counterexample: with page size 10 and an empty listing
(N = 0), the paginator reports one page — `ceil(0/10) = 0` pages is what
the claim predicts — and that single page holds 0 items where the claim's
last-page rule (P items when N mod P = 0) predicts 10. -/
theorem pagination_zero_items_cex :
    numPages 0 10 = 1 ∧ (0 + 10 - 1) / 10 = 0 ∧
    (pageItems ([] : List Nat) 10 (PageParam.num 1)).length = 0 := by
  decide

/-- Claim C4 (amended): for page size P > 0 and a non-empty listing of N
items, the paginator yields `ceil(N/P) = (N+P-1)/P` pages; page K
(1 ≤ K ≤ numPages) holds exactly P items when it is not the last page,
and N mod P items (or P when P divides N) when it is; an empty listing
gives a single empty page.  In particular 13 items at page size 10 give
page 1 with 10 items and page 2 with the remaining 3. -/
theorem pagination_page_sizes (l : List α) (P K : Nat) (hP : 0 < P)
    (hN : 0 < l.length) (hK1 : 1 ≤ K) (hK2 : K ≤ numPages l.length P) :
    numPages l.length P = (l.length + P - 1) / P ∧
    (pageItems l P (PageParam.num (K : Int))).length =
      (if K < numPages l.length P then P
       else if l.length % P = 0 then P else l.length % P) ∧
    numPages 0 P = 1 ∧
    (pageItems (List.range 13) PAGE (PageParam.num 1)).length = 10 ∧
    (pageItems (List.range 13) PAGE (PageParam.num 2)).length = 3 := by
  refine ⟨?_, pageItems_num_length l P K hP hN hK1 hK2, ?_, by decide, by decide⟩
  · unfold numPages
    rw [max_eq_right hN]
  · unfold numPages
    have : max 1 0 + P - 1 = P := by omega
    rw [this, Nat.div_self hP]

/-- Witness for the amended C4, at 13 items, page size 10, page 2: the
number of pages is `ceil(13/10)`. -/
theorem pagination_page_sizes_witness :
    0 < 10 ∧ 0 < (List.range 13).length ∧ 1 ≤ 2 ∧
    2 ≤ numPages (List.range 13).length 10 ∧
    numPages (List.range 13).length 10 = ((List.range 13).length + 10 - 1) / 10 :=
  ⟨by decide, by decide, by decide, by decide,
   (pagination_page_sizes (List.range 13) 10 2 (by decide) (by decide)
      (by decide) (by decide)).1⟩

/-- Claim C5: the requested page index is taken from the `page` query
parameter: a missing or non-numeric parameter resolves to page 1, an
integer K out of the valid range resolves to the last page, the resolved
index always lies in `[1, numPages]`, and the returned items are the slice
`[(K-1)*P, K*P)` of the listing (clipped to its length by drop/take). -/
theorem get_page_resolution (l : List α) (P : Nat) (q : PageParam)
    (hP : 0 < P) :
    1 ≤ resolvePage l.length P q ∧
    resolvePage l.length P q ≤ numPages l.length P ∧
    pageItems l P q =
      (l.drop ((resolvePage l.length P q - 1) * P)).take P ∧
    ((q = PageParam.missing ∨ q = PageParam.nonNumeric) →
      resolvePage l.length P q = 1) ∧
    (∀ j : Int, q = PageParam.num j →
      (1 ≤ j → j ≤ (numPages l.length P : Int) →
        resolvePage l.length P q = j.toNat) ∧
      (j < 1 ∨ (numPages l.length P : Int) < j →
        resolvePage l.length P q = numPages l.length P)) := by
  have hone := one_le_numPages l.length P hP
  refine ⟨?_, ?_, rfl, ?_, ?_⟩
  · cases q with
    | missing => exact le_refl 1
    | nonNumeric => exact le_refl 1
    | num k =>
        simp only [resolvePage]
        split
        · exact hone
        · split
          · exact hone
          · omega
  · cases q with
    | missing => exact hone
    | nonNumeric => exact hone
    | num k =>
        simp only [resolvePage]
        split
        · exact le_refl _
        · split
          · exact le_refl _
          · omega
  · rintro (rfl | rfl) <;> rfl
  · intro j hq
    subst hq
    constructor
    · intro hj1 hj2
      simp only [resolvePage]
      rw [if_neg (by omega), if_neg (by omega)]
    · intro h
      simp only [resolvePage]
      rcases h with h | h
      · rw [if_pos h]
      · rw [if_neg (by omega), if_pos h]

/-- Witness for C5, at 13 items, page size 10, requested page 5 (out of
range): the resolved page is at least 1. -/
theorem get_page_resolution_witness :
    0 < 10 ∧ 1 ≤ resolvePage (List.range 13).length 10 (PageParam.num 5) :=
  ⟨by decide,
   (get_page_resolution (List.range 13) 10 (PageParam.num 5) (by decide)).1⟩

end Yatube
